import Mathlib

/-!
Formal model of the PDF quiz / RAG application.

The definitions below are a shallow embedding of the Python sources:
`src/utils/helpers.py` (SimpleRetriever, QuizManager) and
`src/generator/enhanced_question_generator.py` (EnhancedQuestionGenerator).
Python machine-level details are modelled as follows: `str` becomes `String`
(operating on `List Char` where proofs need structure), Python `float`
arithmetic on ratios of small naturals becomes `ℚ`, a raised exception
becomes an `Option`/`Except` error value, and Python truthiness of strings
and `None` is modelled explicitly.
-/

/-- Left-to-right scan implementing Python `str.split()` (no argument):
`acc` is the word currently being read; a whitespace character closes it,
and an empty word is never emitted. -/
def splitAcc : List Char → List Char → List (List Char)
  | [], acc => if acc = [] then [] else [acc]
  | c :: cs, acc =>
    if c.isWhitespace then
      if acc = [] then splitAcc cs [] else acc :: splitAcc cs []
    else splitAcc cs (acc ++ [c])

/-- Model of Python `str.split()` (no argument): split on runs of whitespace,
returning the maximal whitespace-free non-empty words, at the `List Char`
level. -/
def wordsAux (l : List Char) : List (List Char) :=
  splitAcc l []

/-- Model of Python `str.split()` on `String`. -/
def pySplit (s : String) : List String :=
  (wordsAux s.data).map String.mk

/-- Model of Python `str.lower()` (ASCII case folding, as in `Char.toLower`). -/
def pyLower (s : String) : String :=
  String.mk (s.data.map Char.toLower)

/-- Model of Python `str.strip()`: drop whitespace from both ends. -/
def pyStrip (s : String) : String :=
  String.mk (((s.data.dropWhile Char.isWhitespace).reverse.dropWhile Char.isWhitespace).reverse)

/-- Substring occurrence test on character lists (model of Python `needle in hay`). -/
def pyContainsCh (n : List Char) : List Char → Bool
  | [] => n.isEmpty
  | c :: h => n.isPrefixOf (c :: h) || pyContainsCh n h

/-- Model of Python `needle in hay` for strings (substring containment). -/
def pyContains (needle hay : String) : Bool :=
  pyContainsCh needle.data hay.data

/-- Lower-cased whitespace-token set of a string:
Python `set(query.lower().split())` in `SimpleRetriever.retrieve`. -/
def queryWords (s : String) : Finset String :=
  (pySplit (pyLower s)).toFinset

/-- Per-chunk relevance score of `SimpleRetriever.retrieve` (helpers.py lines 22-31),
assuming the query word set is non-empty so Python's division succeeds:
Jaccard similarity of the word sets plus half of the keyword-coverage bonus. -/
def chunkScoreVal (qws : Finset String) (chunk : String) : ℚ :=
  let cws := (pySplit (pyLower chunk)).toFinset
  let inter := qws ∩ cws
  let uni := qws ∪ cws
  let jaccard : ℚ := if uni = ∅ then 0 else (inter.card : ℚ) / (uni.card : ℚ)
  let bonus : ℚ := ((qws.filter (fun w => pyContains w (pyLower chunk) = true)).card : ℚ)
    / (qws.card : ℚ)
  jaccard + bonus * (1 / 2)

/-- Per-chunk score including the failure mode: Python raises `ZeroDivisionError`
computing `keyword_bonus` when `len(query_words) == 0` (helpers.py line 29). -/
def chunkScoreE (qws : Finset String) (chunk : String) : Option ℚ :=
  if qws = ∅ then none else some (chunkScoreVal qws chunk)

/-- Relevance score of a single query/chunk pair as computed inline by
`SimpleRetriever.retrieve`; `none` models the `ZeroDivisionError` raised
when the query has no words. -/
def scoreOpt (query chunk : String) : Option ℚ :=
  chunkScoreE (queryWords query) chunk

/-- Score/index/chunk triples for all chunks, in original order, starting at
index `i`: the `for i, chunk in enumerate(self.chunks)` loop of `retrieve`. -/
def scoreAll (qws : Finset String) : Nat → List String → List (ℚ × ℕ × String)
  | _, [] => []
  | i, c :: cs => (chunkScoreVal qws c, i, c) :: scoreAll qws (i + 1) cs

/-- Model of `SimpleRetriever.retrieve(query, top_k)` (helpers.py lines 16-39).
Python's `list.sort(reverse=True, key=...)` is a stable descending sort by
score, which on a list with strictly increasing indices coincides with
`List.insertionSort` under the non-strict score comparison used here.
The result is `none` exactly when Python raises `ZeroDivisionError`: the
query has no words and the scoring loop body runs at least once. -/
def SimpleRetriever.retrieve (chunks : List String) (query : String) (top_k : Nat) :
    Option (List (ℕ × String × ℚ)) :=
  let qws := queryWords query
  if qws = ∅ ∧ chunks ≠ [] then none
  else
    let scores := scoreAll qws 0 chunks
    let sorted := List.insertionSort (fun a b => b.1 ≤ a.1) scores
    some (((sorted.take top_k).filter (fun t => decide (0 < t.1))).map
      (fun t => (t.2.1, t.2.2, t.1)))

/-- Model of `src/models/question_schemas.py` `MCQQuestion`. -/
structure MCQQuestion where
  question : String
  options : List String
  correct_answer : String
deriving DecidableEq, Repr

/-- Model of `src/models/question_schemas.py` `FillBlankQuestion`. -/
structure FillBlankQuestion where
  question : String
  answer : String
deriving DecidableEq, Repr

/-- A question held in `QuizManager.questions`: in Python the untyped list
holds either variant, discriminated by the `question_type` string. -/
inductive Question where
  | mcq (q : MCQQuestion)
  | fillblank (q : FillBlankQuestion)
deriving DecidableEq, Repr

/-- The `.question` attribute, present on both variants. -/
def Question.questionText : Question → String
  | .mcq q => q.question
  | .fillblank q => q.question

/-- Model of a Python exception value as it flows through the code:
either a `ValueError`-style message, the application's `CustomException`
(message plus original exception), or any other error. -/
inductive PyErr where
  | valueError (msg : String)
  | customException (message : String) (cause : PyErr)
  | other (msg : String)
deriving DecidableEq, Repr

/-- One row of `QuizManager.evaluate_quiz`'s `self.results` (helpers.py
lines 218-224). Python stores the truthiness of `is_correct` (which can be
`None`/`""`/`bool` through the `and`-chain); the model stores that truthiness
as a `Bool`. -/
structure GradedAnswer where
  question_number : Nat
  question : String
  user_answer : String
  correct_answer : String
  is_correct : Bool
deriving DecidableEq, Repr

/-- Model of the `QuizManager` object state (helpers.py lines 41-50).
`retriever` is `none` until `build_retriever` succeeds and otherwise holds
the retriever's chunk list; `results` is `none` while the Python attribute
does not yet exist (before the first `evaluate_quiz`). Fields that never
influence the claims (logger, pdf_summary, content_chunks) are omitted. -/
structure QuizManager where
  questions : List Question
  user_answers : List (Option String)
  question_type : String
  pdf_content : String
  retriever : Option (List String)
  results : Option (List GradedAnswer)
deriving DecidableEq, Repr

/-- Model of `QuizManager.__init__`. -/
def QuizManager.init : QuizManager :=
  { questions := []
    user_answers := []
    question_type := ""
    pdf_content := ""
    retriever := none
    results := none }

/-- Model of `QuizManager.set_pdf_content` (the summary argument is not
tracked since no claim mentions it). -/
def QuizManager.set_pdf_content (qm : QuizManager) (content : String) : QuizManager :=
  { qm with pdf_content := content }

/-- Model of recording one answer (`self.user_answers[i] = ...` in
`attempt_quiz`, helpers.py lines 186 and 195). -/
def QuizManager.record_answer (qm : QuizManager) (i : Nat) (ans : Option String) : QuizManager :=
  { qm with user_answers := qm.user_answers.set i ans }

/-- The windowing loop of `QuizManager._split_content` (helpers.py lines
163-165): `for i in range(0, len(words), chunk_size)` collecting
`words[i:i+chunk_size]`. Python's `range` step must be positive; the `cs = 0`
branch returning `[]` is never reached from the call site, where
`cs = max(_, 100) ≥ 100`. -/
def chunkWindowsFuel : Nat → List String → Nat → List (List String)
  | _, [], _ => []
  | 0, _ :: _, _ => []
  | fuel + 1, w :: ws, cs => (w :: ws).take cs :: chunkWindowsFuel fuel ((w :: ws).drop cs) cs

/-- The window list of `_split_content`: with `cs ≥ 1` every step consumes at
least one word, so `words.length` steps of fuel always suffice and the
fuel-exhaustion branch of `chunkWindowsFuel` is unreachable. -/
def chunkWindows (words : List String) (cs : Nat) : List (List String) :=
  chunkWindowsFuel words.length words cs

/-- Python `" ".join(words)` at the `List Char` level. -/
def joinWordsCh : List (List Char) → List Char
  | [] => []
  | [w] => w
  | w :: ws => w ++ ' ' :: joinWordsCh ws

/-- Python `" ".join(words)` on strings. -/
def joinSpace (ws : List String) : String :=
  String.mk (joinWordsCh (ws.map String.data))

/-- Model of `QuizManager._split_content(content, num_parts)` (helpers.py
lines 157-167), defined for `num_parts ≥ 1`; the wrapper `splitContentE`
accounts for Python's `ZeroDivisionError` at `num_parts = 0`. -/
def splitContent (content : String) (num_parts : Nat) : List String :=
  let words := pySplit content
  let chunk_size := max (words.length / num_parts) 100
  let chunks := (chunkWindows words chunk_size).map joinSpace
  if chunks = [] then [content] else chunks

/-- Model of `QuizManager._split_content` including the `ZeroDivisionError`
Python raises when `num_parts = 0` (`len(words) // num_parts`). -/
def splitContentE (content : String) (num_parts : Nat) : Except PyErr (List String) :=
  if num_parts = 0 then .error (.other "division by zero")
  else .ok (splitContent content num_parts)

/-- The question-generation collaborator (`EnhancedQuestionGenerator` as used
by `generate_questions_from_pdf`): for each loop iteration and chunk text it
either produces a validated question of the requested kind or raises. The
iteration index makes the model quantify over every possible sequence of
outcomes of the stateful LLM-backed generator. -/
structure Generator where
  genMCQ : Nat → String → String → Except PyErr MCQQuestion
  genFB : Nat → String → String → Except PyErr FillBlankQuestion

/-- The `for i in range(num_questions)` loop of
`QuizManager.generate_questions_from_pdf` (helpers.py lines 137-150):
`i` is the next iteration index, `remaining` the iterations left. On an
exception the `except` handler returns `False` leaving the partially built
state as is; after the last iteration `user_answers` is reset and the call
returns `True`. -/
def genLoop (gen : Generator) (qtype diff : String) (chunks : List String) :
    Nat → Nat → QuizManager → QuizManager × Bool
  | _, 0, qm => ({ qm with user_answers := List.replicate qm.questions.length none }, true)
  | i, r + 1, qm =>
    let chunk := chunks.getD (i % chunks.length) ""
    if qtype = "Multiple Choice" then
      match gen.genMCQ i chunk diff with
      | .ok q => genLoop gen qtype diff chunks (i + 1) r
          { qm with questions := qm.questions ++ [Question.mcq q] }
      | .error _ => (qm, false)
    else if qtype = "Fill in the Blank" then
      match gen.genFB i chunk diff with
      | .ok q => genLoop gen qtype diff chunks (i + 1) r
          { qm with questions := qm.questions ++ [Question.fillblank q] }
      | .error _ => (qm, false)
    else (qm, false)

/-- Model of `QuizManager.generate_questions_from_pdf` (helpers.py lines
125-155). The `try` block raises `ValueError` on empty content before any
mutation; otherwise `questions` is cleared and `question_type` set, content
is split, and the loop runs; every exception is caught by the `except`
handler which returns `False`. The returned `Bool` is the Python return
value. -/
def QuizManager.generate_questions_from_pdf (qm : QuizManager) (gen : Generator)
    (question_type difficulty : String) (num_questions : Nat) : QuizManager × Bool :=
  if qm.pdf_content = "" then (qm, false)
  else
    let qm1 := { qm with questions := [], question_type := question_type }
    match splitContentE qm.pdf_content num_questions with
    | .error _ => (qm1, false)
    | .ok chunks =>
      genLoop gen question_type (pyLower difficulty) chunks 0 num_questions qm1

/-- Python truthiness of an optional string (`None` and `""` are falsy). -/
def pyTruthy : Option String → Bool
  | none => false
  | some s => decide (s ≠ "")

/-- Python `user_answer or "No answer"` (helpers.py line 221). -/
def answerDisplay : Option String → String
  | none => "No answer"
  | some s => if s = "" then "No answer" else s

/-- Grading of one question inside `evaluate_quiz` (helpers.py lines
207-224). In the two branches marked unreachable Python would raise
`AttributeError` (accessing `correct_answer` on a `FillBlankQuestion` or
`answer` on an `MCQQuestion`); they are never exercised on states whose
`questions` match `question_type`, which is all states this development
reasons about. -/
def gradeOne (qtype : String) (i : Nat) (q : Question) (ua : Option String) : GradedAnswer :=
  let res : Bool × String :=
    if qtype = "Multiple Choice" then
      match q with
      | .mcq m => (decide (ua = some m.correct_answer), m.correct_answer)
      | .fillblank _ => (false, "")
    else if qtype = "Fill in the Blank" then
      match q with
      | .fillblank f =>
        (pyTruthy ua && decide (pyStrip (pyLower (ua.getD "")) = pyStrip (pyLower f.answer)),
          f.answer)
      | .mcq _ => (false, "")
    else (false, "Unknown")
  { question_number := i + 1
    question := q.questionText
    user_answer := answerDisplay ua
    correct_answer := res.2
    is_correct := res.1 }

/-- The grading loop `for i, (question, user_answer) in enumerate(zip(...))`
of `evaluate_quiz`, starting at index `i`. -/
def gradeList (qtype : String) : Nat → List (Question × Option String) → List GradedAnswer
  | _, [] => []
  | i, p :: rest => gradeOne qtype i p.1 p.2 :: gradeList qtype (i + 1) rest

/-- Model of `QuizManager.evaluate_quiz` (helpers.py lines 199-224): a
guard returns early when either list is falsy (empty); otherwise
`self.results` is assigned the graded rows, one per `zip` pair. -/
def QuizManager.evaluate_quiz (qm : QuizManager) : QuizManager :=
  if qm.questions = [] ∨ qm.user_answers = [] then qm
  else { qm with
    results := some (gradeList qm.question_type 0 (qm.questions.zip qm.user_answers)) }

namespace EnhancedQuestionGenerator

/-- The configured retry bound: `max_retries: int = 3` in
`EnhancedQuestionGenerator._retry_and_parse`. -/
def maxRetries : Nat := 3

/-- One attempt of the `_retry_and_parse` loop body: `llm.invoke`,
`_extract_json_from_response` and `parser.parse` composed, either producing
a parsed question or raising. Indexing by the attempt number quantifies the
model over every possible sequence of outcomes of the external LLM. -/
def Attempts (α : Type) : Type := Nat → Except PyErr α

/-- The `for attempt in range(max_retries)` loop of `_retry_and_parse`
(enhanced_question_generator.py lines 81-95), at loop counter `k` with the
bound `m`: a successful attempt returns the parsed value; a failing attempt
at `attempt == max_retries - 1` raises `CustomException` carrying the last
cause; earlier failures continue. When the loop exhausts without entering
the body (only possible for `m = 0`) Python falls off the function and
returns `None`, modelled by `.ok none`. -/
def retryGo (att : Attempts α) (m : Nat) : Nat → Nat → Except PyErr (Option α)
  | _, 0 => .ok none
  | k, fuel + 1 =>
    match att k with
    | .ok q => .ok (some q)
    | .error e =>
      if k = m - 1 then
        .error (.customException ("Generation failed after " ++ toString m ++ " attempts") e)
      else retryGo att m (k + 1) fuel

/-- Model of `EnhancedQuestionGenerator._retry_and_parse(prompt, parser)`
with the default `max_retries = 3`; the fuel argument `m - k` encodes the
remaining loop iterations. -/
def retry_and_parse (att : Attempts α) : Except PyErr (Option α) :=
  retryGo att maxRetries 0 maxRetries

/-- Model of `EnhancedQuestionGenerator.generate_mcq_from_content`
(enhanced_question_generator.py lines 97-117): run the retry loop, validate
the option count and membership of the correct answer, and wrap every
escaping exception in `CustomException("MCQ generation from content failed", e)`.
The `.ok none` case (retry loop falling through, impossible for
`max_retries = 3`) would be Python's `AttributeError` on `None`. -/
def generate_mcq_from_content (att : Attempts MCQQuestion) : Except PyErr MCQQuestion :=
  let body : Except PyErr MCQQuestion :=
    match retry_and_parse att with
    | .error e => .error e
    | .ok none => .error (.other "AttributeError: NoneType has no attribute options")
    | .ok (some q) =>
      if q.options.length ≠ 4 then
        .error (.valueError ("Expected 4 options, got " ++ toString q.options.length))
      else if q.correct_answer ∉ q.options then
        .error (.valueError "Correct answer not found in options")
      else .ok q
  match body with
  | .ok q => .ok q
  | .error e => .error (.customException "MCQ generation from content failed" e)

end EnhancedQuestionGenerator

/-- Context block construction in `QuizManager.get_rag_response` (helpers.py
line 105): the labelled lines `"Context {i+1}: {chunk}"`, where `chunk` is
the middle component of each retrieved triple. -/
def contextLines : Nat → List (ℕ × String × ℚ) → List String
  | _, [] => []
  | i, t :: ts => ("Context " ++ toString (i + 1) ++ ": " ++ t.2.1) :: contextLines (i + 1) ts

/-- Python `"\n\n".join(...)` over the context lines. -/
def contextOf (retrieved : List (ℕ × String × ℚ)) : String :=
  String.intercalate "\n\n" (contextLines 0 retrieved)

/-- The grounded prompt f-string of `get_rag_response` (helpers.py lines
107-114). -/
def ragPrompt (query context : String) : String :=
  "Based on the following context from the document, please answer the user's question. If the answer is not clearly supported by the context, say so.\n\nContext:\n"
    ++ context
    ++ "\n\nQuestion: " ++ query
    ++ "\n\nAnswer: Provide a clear, accurate answer based on the context above. If you reference specific information, mention which context section it comes from."

/-- Model of `QuizManager.get_rag_response(query, llm)` (helpers.py lines
92-123). The LLM collaborator maps a prompt to either its response content
or a raised exception (message string). The `retrieve` call raising
`ZeroDivisionError` and `llm.invoke` raising are both caught by the
`except` block, which returns the error message paired with no citations;
Python's `str(ZeroDivisionError(...))` is the string "division by zero". -/
def QuizManager.get_rag_response (qm : QuizManager) (query : String)
    (llm : String → Except String String) : String × List (ℕ × String × ℚ) :=
  match qm.retriever with
  | none => ("Please process a PDF first to enable chat functionality.", [])
  | some chunks =>
    match SimpleRetriever.retrieve chunks query 3 with
    | none => ("Error generating response: division by zero", [])
    | some retrieved =>
      if retrieved = [] then
        ("I couldn't find relevant information in the document to answer your question.", [])
      else
        match llm (ragPrompt query (contextOf retrieved)) with
        | .ok content => (content, retrieved)
        | .error e => ("Error generating response: " ++ e, [])

/-- C9: whenever the retriever has not been built, or retrieval succeeds with
no chunk scoring above 0, `get_rag_response` returns a canned fallback
message with an empty citations list, and the result does not depend on the
LLM collaborator at all (the LLM is not invoked). -/
theorem get_rag_response_fallback (qm : QuizManager) (query : String)
    (llm llm2 : String → Except String String)
    (h : qm.retriever = none ∨ ∃ chunks, qm.retriever = some chunks ∧
      SimpleRetriever.retrieve chunks query 3 = some []) :
    (qm.get_rag_response query llm).2 = [] ∧
    ((qm.get_rag_response query llm).1 =
        "Please process a PDF first to enable chat functionality." ∨
      (qm.get_rag_response query llm).1 =
        "I couldn't find relevant information in the document to answer your question.") ∧
    qm.get_rag_response query llm = qm.get_rag_response query llm2 := by
  rcases h with h | ⟨chunks, hc, hr⟩
  · refine ⟨?_, Or.inl ?_, ?_⟩ <;> simp only [QuizManager.get_rag_response, h]
  · refine ⟨?_, Or.inr ?_, ?_⟩ <;> simp [QuizManager.get_rag_response, hc, hr]

/-- Witness for C9 at a concrete state: a fresh `QuizManager` (no retriever)
with two different LLM collaborators. -/
theorem get_rag_response_fallback_witness :
    (QuizManager.init.get_rag_response "hi" (fun _ => Except.ok "x")).2 = [] ∧
    ((QuizManager.init.get_rag_response "hi" (fun _ => Except.ok "x")).1 =
        "Please process a PDF first to enable chat functionality." ∨
      (QuizManager.init.get_rag_response "hi" (fun _ => Except.ok "x")).1 =
        "I couldn't find relevant information in the document to answer your question.") ∧
    QuizManager.init.get_rag_response "hi" (fun _ => Except.ok "x") =
      QuizManager.init.get_rag_response "hi" (fun _ => Except.error "y") :=
  get_rag_response_fallback QuizManager.init "hi" _ _ (Or.inl rfl)

/-- C10: `get_rag_response` always returns a string/citations pair (no
exception escapes), and when retrieval raises internally
(`ZeroDivisionError`) or the LLM invocation raises, the returned string is
an error message and the citations list is empty. -/
theorem get_rag_response_total (qm : QuizManager) (query : String)
    (llm : String → Except String String) :
    (∃ s cites, qm.get_rag_response query llm = (s, cites)) ∧
    (∀ chunks, qm.retriever = some chunks →
      SimpleRetriever.retrieve chunks query 3 = none →
      qm.get_rag_response query llm = ("Error generating response: division by zero", [])) ∧
    (∀ chunks retrieved e, qm.retriever = some chunks →
      SimpleRetriever.retrieve chunks query 3 = some retrieved → retrieved ≠ [] →
      llm (ragPrompt query (contextOf retrieved)) = Except.error e →
      qm.get_rag_response query llm = ("Error generating response: " ++ e, [])) := by
  refine ⟨⟨_, _, rfl⟩, ?_, ?_⟩
  · intro chunks hc hr
    simp only [QuizManager.get_rag_response, hc, hr]
  · intro chunks retrieved e hc hr hne hllm
    simp only [QuizManager.get_rag_response, hc, hr, if_neg hne, hllm]

section
attribute [local semireducible] Rat.mul Rat.add Rat.inv Rat.sub

/-- Witness for C10 at a concrete state: one chunk, a matching query, and an
LLM collaborator that raises; the call returns the error pair instead of
propagating. -/
theorem get_rag_response_total_witness :
    QuizManager.get_rag_response
        { QuizManager.init with retriever := some ["hello world"] } "hello"
        (fun _ => Except.error "boom") =
      ("Error generating response: boom", []) :=
  (get_rag_response_total
      { QuizManager.init with retriever := some ["hello world"] } "hello"
      (fun _ => Except.error "boom")).2.2
    ["hello world"] [(0, "hello world", 1)] "boom" rfl (by decide) (by decide) rfl

end

/-- Counterexample to C5 as stated: an LLM response whose four options are
all the same string passes the validation in `generate_mcq_from_content`
(the code checks only `len(question.options) != 4` and membership of
`correct_answer`, never distinctness), so the returned `MCQQuestion` does
not have 4 distinct options. -/
theorem generate_mcq_distinct_cex :
    EnhancedQuestionGenerator.generate_mcq_from_content
        (fun _ => Except.ok ⟨"Q", ["A", "A", "A", "A"], "A"⟩) =
      Except.ok ⟨"Q", ["A", "A", "A", "A"], "A"⟩ ∧
    ¬ (["A", "A", "A", "A"] : List String).Nodup := by
  exact ⟨rfl, by decide⟩

/-- C5 (amended): every `MCQQuestion` returned by `generate_mcq_from_content`
has exactly 4 options (not necessarily distinct) with `correct_answer` among
them; and when every attempt fails parsing, the call raises a
`CustomException` wrapping a `CustomException` that carries the last
underlying cause, after the configured 3 attempts. -/
theorem generate_mcq_spec (att : EnhancedQuestionGenerator.Attempts MCQQuestion) :
    (∀ q, EnhancedQuestionGenerator.generate_mcq_from_content att = Except.ok q →
      q.options.length = 4 ∧ q.correct_answer ∈ q.options) ∧
    (∀ e0 e1 e2, att 0 = Except.error e0 → att 1 = Except.error e1 →
      att 2 = Except.error e2 →
      EnhancedQuestionGenerator.generate_mcq_from_content att =
        Except.error (.customException "MCQ generation from content failed"
          (.customException "Generation failed after 3 attempts" e2))) := by
  constructor
  · intro q hq
    unfold EnhancedQuestionGenerator.generate_mcq_from_content at hq
    rcases hrp : EnhancedQuestionGenerator.retry_and_parse att with e | o
    · rw [hrp] at hq
      simp at hq
    · rw [hrp] at hq
      rcases o with _ | q'
      · simp at hq
      · by_cases h4 : q'.options.length ≠ 4
        · simp [h4] at hq
        · by_cases hmem : q'.correct_answer ∉ q'.options
          · simp [h4, hmem] at hq
          · simp [h4, hmem] at hq
            subst hq
            exact ⟨by omega, not_not.mp hmem⟩
  · intro e0 e1 e2 h0 h1 h2
    unfold EnhancedQuestionGenerator.generate_mcq_from_content
      EnhancedQuestionGenerator.retry_and_parse EnhancedQuestionGenerator.maxRetries
    simp [EnhancedQuestionGenerator.retryGo, h0, h1, h2]
    rfl

/-- Witness for C5 at concrete inputs: a well-formed parsed question is
returned and satisfies the validated shape, and an always-failing parse
pipeline yields the wrapped `CustomException` carrying the last cause. -/
theorem generate_mcq_spec_witness :
    ((MCQQuestion.mk "Q" ["A", "B", "C", "D"] "B").options.length = 4 ∧
      (MCQQuestion.mk "Q" ["A", "B", "C", "D"] "B").correct_answer ∈
        (MCQQuestion.mk "Q" ["A", "B", "C", "D"] "B").options) ∧
    EnhancedQuestionGenerator.generate_mcq_from_content
        (fun _ => Except.error (.other "parse fail")) =
      Except.error (.customException "MCQ generation from content failed"
        (.customException "Generation failed after 3 attempts" (.other "parse fail"))) :=
  ⟨(generate_mcq_spec (fun _ => Except.ok ⟨"Q", ["A", "B", "C", "D"], "B"⟩)).1 _ rfl,
    (generate_mcq_spec (fun _ => Except.error (.other "parse fail"))).2
      (.other "parse fail") (.other "parse fail") (.other "parse fail") rfl rfl rfl⟩

/-- Invariants of the generation loop: the fields other than `questions` and
`user_answers` are never modified; on success `user_answers` is reset to
unset sentinels matching the final `questions`; on failure `user_answers` is
untouched and at most `r - 1` questions were appended. -/
theorem genLoop_inv (gen : Generator) (t d : String) (chunks : List String) :
    ∀ (r i : Nat) (qm : QuizManager),
      (genLoop gen t d chunks i r qm).1.question_type = qm.question_type ∧
      (genLoop gen t d chunks i r qm).1.pdf_content = qm.pdf_content ∧
      (genLoop gen t d chunks i r qm).1.retriever = qm.retriever ∧
      (genLoop gen t d chunks i r qm).1.results = qm.results ∧
      ((genLoop gen t d chunks i r qm).2 = true →
        (genLoop gen t d chunks i r qm).1.user_answers =
          List.replicate (genLoop gen t d chunks i r qm).1.questions.length none) ∧
      ((genLoop gen t d chunks i r qm).2 = false →
        (genLoop gen t d chunks i r qm).1.user_answers = qm.user_answers ∧
        (genLoop gen t d chunks i r qm).1.questions.length < qm.questions.length + r) := by
  intro r
  induction r with
  | zero =>
    intro i qm
    exact ⟨rfl, rfl, rfl, rfl, fun _ => rfl, fun hf => by simp [genLoop] at hf⟩
  | succ r ih =>
    intro i qm
    by_cases ht : t = "Multiple Choice"
    · subst ht
      cases hg : gen.genMCQ i (chunks.getD (i % chunks.length) "") d with
      | ok q =>
        have hred : genLoop gen "Multiple Choice" d chunks i (r + 1) qm =
            genLoop gen "Multiple Choice" d chunks (i + 1) r
              { qm with questions := qm.questions ++ [Question.mcq q] } := by
          simp only [genLoop, reduceIte]
          rw [hg]
        rw [hred]
        have H := ih (i + 1) { qm with questions := qm.questions ++ [Question.mcq q] }
        refine ⟨H.1, H.2.1, H.2.2.1, H.2.2.2.1, H.2.2.2.2.1, fun hf => ?_⟩
        obtain ⟨hua, hlen⟩ := H.2.2.2.2.2 hf
        refine ⟨hua, ?_⟩
        simp only [List.length_append, List.length_cons, List.length_nil] at hlen
        omega
      | error e =>
        have hred : genLoop gen "Multiple Choice" d chunks i (r + 1) qm = (qm, false) := by
          simp only [genLoop, reduceIte]
          rw [hg]
        rw [hred]
        exact ⟨rfl, rfl, rfl, rfl, fun h => by simp at h,
          fun _ => ⟨rfl, Nat.lt_add_of_pos_right (Nat.succ_pos r)⟩⟩
    · by_cases ht2 : t = "Fill in the Blank"
      · subst ht2
        cases hg : gen.genFB i (chunks.getD (i % chunks.length) "") d with
        | ok q =>
          have hred : genLoop gen "Fill in the Blank" d chunks i (r + 1) qm =
              genLoop gen "Fill in the Blank" d chunks (i + 1) r
                { qm with questions := qm.questions ++ [Question.fillblank q] } := by
            simp only [genLoop]
            rw [if_neg ht]
            simp only [reduceIte]
            rw [hg]
          rw [hred]
          have H := ih (i + 1) { qm with questions := qm.questions ++ [Question.fillblank q] }
          refine ⟨H.1, H.2.1, H.2.2.1, H.2.2.2.1, H.2.2.2.2.1, fun hf => ?_⟩
          obtain ⟨hua, hlen⟩ := H.2.2.2.2.2 hf
          refine ⟨hua, ?_⟩
          simp only [List.length_append, List.length_cons, List.length_nil] at hlen
          omega
        | error e =>
          have hred : genLoop gen "Fill in the Blank" d chunks i (r + 1) qm = (qm, false) := by
            simp only [genLoop]
            rw [if_neg ht]
            simp only [reduceIte]
            rw [hg]
          rw [hred]
          exact ⟨rfl, rfl, rfl, rfl, fun h => by simp at h,
            fun _ => ⟨rfl, Nat.lt_add_of_pos_right (Nat.succ_pos r)⟩⟩
      · have hred : genLoop gen t d chunks i (r + 1) qm = (qm, false) := by
          simp only [genLoop, if_neg ht, if_neg ht2]
        rw [hred]
        exact ⟨rfl, rfl, rfl, rfl, fun h => by simp at h,
          fun _ => ⟨rfl, Nat.lt_add_of_pos_right (Nat.succ_pos r)⟩⟩

/-- A question-generation collaborator whose every call succeeds. -/
def genAlwaysOk : Generator :=
  { genMCQ := fun _ _ _ => Except.ok ⟨"q1", ["A", "B", "C", "D"], "A"⟩
    genFB := fun _ _ _ => Except.ok ⟨"The capital of France is ___", "Paris"⟩ }

/-- A question-generation collaborator whose every call raises. -/
def genAlwaysFail : Generator :=
  { genMCQ := fun _ _ _ => Except.error (.other "llm failure")
    genFB := fun _ _ _ => Except.error (.other "llm failure") }

/-- A question-generation collaborator that succeeds on the first call and
raises on every later one. -/
def genFailSecond : Generator :=
  { genMCQ := fun i _ _ =>
      if i = 0 then Except.ok ⟨"q1", ["A", "B", "C", "D"], "A"⟩
      else Except.error (.other "llm failure")
    genFB := fun _ _ _ => Except.error (.other "llm failure") }

/-- A session state holding one answered question from an earlier quiz. -/
def cexPrior : QuizManager :=
  { questions := [Question.mcq ⟨"old question", ["A", "B", "C", "D"], "A"⟩]
    user_answers := [some "A"]
    question_type := "Multiple Choice"
    pdf_content := "alpha beta gamma"
    retriever := none
    results := none }

/-- Counterexample to C1 as stated: with a generator that succeeds once and
then raises, a failed `generate_questions_from_pdf` call for 2 questions
leaves `questions` holding 1 freshly generated question — neither the prior
sequence nor the requested count. -/
theorem generate_partial_state_cex :
    (cexPrior.generate_questions_from_pdf genFailSecond "Multiple Choice" "Medium" 2).2 =
      false ∧
    (cexPrior.generate_questions_from_pdf genFailSecond "Multiple Choice" "Medium" 2).1.questions ≠
      cexPrior.questions ∧
    (cexPrior.generate_questions_from_pdf genFailSecond "Multiple Choice"
        "Medium" 2).1.questions.length = 1 := by
  refine ⟨rfl, by decide, rfl⟩

/-- C1 (amended): a failed `generate_questions_from_pdf` call with empty PDF
content leaves the session unchanged; any other failed call leaves
`user_answers` and `results` untouched but has already reset `questions` and
`question_type`: afterwards `questions` holds strictly fewer questions than
requested (the successfully generated prefix), not the prior sequence. -/
theorem generate_failure_state (qm : QuizManager) (gen : Generator)
    (qtype difficulty : String) (n : Nat) (hn : 1 ≤ n) :
    (qm.pdf_content = "" →
      qm.generate_questions_from_pdf gen qtype difficulty n = (qm, false)) ∧
    ((qm.generate_questions_from_pdf gen qtype difficulty n).2 = false →
      qm.pdf_content ≠ "" →
      (qm.generate_questions_from_pdf gen qtype difficulty n).1.user_answers = qm.user_answers ∧
      (qm.generate_questions_from_pdf gen qtype difficulty n).1.results = qm.results ∧
      (qm.generate_questions_from_pdf gen qtype difficulty n).1.question_type = qtype ∧
      (qm.generate_questions_from_pdf gen qtype difficulty n).1.questions.length < n) := by
  constructor
  · intro h
    unfold QuizManager.generate_questions_from_pdf
    rw [if_pos h]
  · intro hf hne
    unfold QuizManager.generate_questions_from_pdf at hf ⊢
    rw [if_neg hne] at hf ⊢
    have hsplit : splitContentE qm.pdf_content n = .ok (splitContent qm.pdf_content n) := by
      unfold splitContentE
      rw [if_neg (by omega : ¬n = 0)]
    rw [hsplit] at hf ⊢
    have H := genLoop_inv gen qtype (pyLower difficulty) (splitContent qm.pdf_content n) n 0
      { qm with questions := [], question_type := qtype }
    obtain ⟨h1, _, _, h4, _, h6⟩ := H
    obtain ⟨hua, hlen⟩ := h6 hf
    refine ⟨hua, h4, h1, ?_⟩
    simpa using hlen

/-- Witness for C1 at concrete inputs: the empty-content failure leaves a
fresh manager unchanged, and the mid-loop failure at `cexPrior` keeps the
prior `user_answers`/`results` while holding fewer questions than the 2
requested. -/
theorem generate_failure_state_witness :
    QuizManager.init.generate_questions_from_pdf genAlwaysFail "Multiple Choice" "Medium" 1 =
      (QuizManager.init, false) ∧
    ((cexPrior.generate_questions_from_pdf genFailSecond "Multiple Choice"
        "Medium" 2).1.user_answers = cexPrior.user_answers ∧
      (cexPrior.generate_questions_from_pdf genFailSecond "Multiple Choice"
        "Medium" 2).1.results = cexPrior.results ∧
      (cexPrior.generate_questions_from_pdf genFailSecond "Multiple Choice"
        "Medium" 2).1.question_type = "Multiple Choice" ∧
      (cexPrior.generate_questions_from_pdf genFailSecond "Multiple Choice"
        "Medium" 2).1.questions.length < 2) :=
  ⟨(generate_failure_state QuizManager.init genAlwaysFail "Multiple Choice" "Medium" 1
      (by decide)).1 rfl,
    (generate_failure_state cexPrior genFailSecond "Multiple Choice" "Medium" 2
      (by decide)).2 (by decide) (by decide)⟩

/-- The session state after a successful 1-question generation followed by a
failed regeneration: the failed call clears `questions` but leaves the old
`user_answers`. -/
def cexC2state : QuizManager :=
  (((QuizManager.init.set_pdf_content "alpha beta").generate_questions_from_pdf genAlwaysOk
      "Multiple Choice" "Medium" 1).1.generate_questions_from_pdf genAlwaysFail
      "Multiple Choice" "Medium" 1).1

/-- Counterexample to C2 as stated: a reachable state (construct, set
content, successful generate, failed regenerate) where `user_answers` has
length 1 but `questions` is empty. -/
theorem answers_length_cex :
    cexC2state.user_answers.length ≠ cexC2state.questions.length ∧
    cexC2state.user_answers.length = 1 ∧ cexC2state.questions.length = 0 := by
  decide

/-- C2 (amended): `len(user_answers) == len(questions)` holds after
construction and after every successful `generate_questions_from_pdf`, and
both lists are preserved (lengths in particular) by answer recording,
`evaluate_quiz` and `set_pdf_content`; a failed generate call, however, can
break the invariant. -/
theorem answers_length_invariant :
    QuizManager.init.user_answers.length = QuizManager.init.questions.length ∧
    (∀ (qm : QuizManager) (gen : Generator) (qtype difficulty : String) (n : Nat),
      (qm.generate_questions_from_pdf gen qtype difficulty n).2 = true →
      (qm.generate_questions_from_pdf gen qtype difficulty n).1.user_answers.length =
        (qm.generate_questions_from_pdf gen qtype difficulty n).1.questions.length) ∧
    (∀ (qm : QuizManager) (i : Nat) (a : Option String),
      (qm.record_answer i a).user_answers.length = qm.user_answers.length ∧
      (qm.record_answer i a).questions = qm.questions) ∧
    (∀ qm : QuizManager, qm.evaluate_quiz.user_answers = qm.user_answers ∧
      qm.evaluate_quiz.questions = qm.questions) ∧
    (∀ (qm : QuizManager) (content : String),
      (qm.set_pdf_content content).user_answers = qm.user_answers ∧
      (qm.set_pdf_content content).questions = qm.questions) := by
  refine ⟨rfl, ?_, ?_, ?_, fun qm content => ⟨rfl, rfl⟩⟩
  · intro qm gen qtype difficulty n hs
    unfold QuizManager.generate_questions_from_pdf at hs ⊢
    by_cases hpc : qm.pdf_content = ""
    · rw [if_pos hpc] at hs
      simp at hs
    · rw [if_neg hpc] at hs ⊢
      cases hsp : splitContentE qm.pdf_content n with
      | error e =>
        rw [hsp] at hs
        simp at hs
      | ok chunks =>
        rw [hsp] at hs
        have H := genLoop_inv gen qtype (pyLower difficulty) chunks n 0
          { qm with questions := [], question_type := qtype }
        have hrep := H.2.2.2.2.1 hs
        show (genLoop gen qtype (pyLower difficulty) chunks 0 n
            { qm with questions := [], question_type := qtype }).1.user_answers.length =
          (genLoop gen qtype (pyLower difficulty) chunks 0 n
            { qm with questions := [], question_type := qtype }).1.questions.length
        rw [hrep]
        exact List.length_replicate _ _
  · intro qm i a
    exact ⟨List.length_set qm.user_answers i a, rfl⟩
  · intro qm
    by_cases h : qm.questions = [] ∨ qm.user_answers = [] <;>
      simp [QuizManager.evaluate_quiz, h]

/-- Witness for C2 at concrete inputs: a successful 1-question generation
yields equal lengths. -/
theorem answers_length_invariant_witness :
    ((QuizManager.init.set_pdf_content "alpha beta").generate_questions_from_pdf genAlwaysOk
        "Multiple Choice" "Medium" 1).1.user_answers.length =
      ((QuizManager.init.set_pdf_content "alpha beta").generate_questions_from_pdf genAlwaysOk
        "Multiple Choice" "Medium" 1).1.questions.length :=
  answers_length_invariant.2.1 (QuizManager.init.set_pdf_content "alpha beta") genAlwaysOk
    "Multiple Choice" "Medium" 1 (by decide)

/-- The session state pair after: set content, generate one fill-blank
question, answer it, evaluate, then successfully regenerate. -/
def cexC7state : QuizManager × Bool :=
  (((QuizManager.init.set_pdf_content "alpha beta").generate_questions_from_pdf genAlwaysOk
        "Fill in the Blank" "Medium" 1).1.record_answer 0
      (some "Paris")).evaluate_quiz.generate_questions_from_pdf genAlwaysOk
    "Fill in the Blank" "Medium" 1

/-- Counterexample to C7 as stated: after a successful second generate call
the previously graded `results` are still present in the session
(`generate_questions_from_pdf` never clears `self.results`). -/
theorem regenerate_results_cex :
    cexC7state.2 = true ∧
    cexC7state.1.results =
      some [⟨1, "The capital of France is ___", "Paris", "Paris", true⟩] ∧
    cexC7state.1.user_answers = [none] := by
  decide

/-- C7 (amended): a successful regeneration resets `user_answers` to
all-unset sentinels matching the new `questions` length (discarding prior
recorded answers), but the prior graded `results` remain in the session
untouched until the next `evaluate_quiz`. -/
theorem regenerate_resets (qm : QuizManager) (gen : Generator)
    (qtype difficulty : String) (n : Nat)
    (hs : (qm.generate_questions_from_pdf gen qtype difficulty n).2 = true) :
    (qm.generate_questions_from_pdf gen qtype difficulty n).1.user_answers =
      List.replicate
        (qm.generate_questions_from_pdf gen qtype difficulty n).1.questions.length none ∧
    (qm.generate_questions_from_pdf gen qtype difficulty n).1.results = qm.results := by
  unfold QuizManager.generate_questions_from_pdf at hs ⊢
  by_cases hpc : qm.pdf_content = ""
  · rw [if_pos hpc] at hs
    simp at hs
  · rw [if_neg hpc] at hs ⊢
    cases hsp : splitContentE qm.pdf_content n with
    | error e =>
      rw [hsp] at hs
      simp at hs
    | ok chunks =>
      rw [hsp] at hs
      have H := genLoop_inv gen qtype (pyLower difficulty) chunks n 0
        { qm with questions := [], question_type := qtype }
      exact ⟨H.2.2.2.2.1 hs, H.2.2.2.1⟩

/-- Witness for C7 at the concrete regeneration chain of `cexC7state`. -/
theorem regenerate_resets_witness :
    cexC7state.1.user_answers = List.replicate cexC7state.1.questions.length none ∧
    cexC7state.1.results =
      ((((QuizManager.init.set_pdf_content "alpha beta").generate_questions_from_pdf genAlwaysOk
        "Fill in the Blank" "Medium" 1).1.record_answer 0
        (some "Paris")).evaluate_quiz).results :=
  regenerate_resets
    ((((QuizManager.init.set_pdf_content "alpha beta").generate_questions_from_pdf genAlwaysOk
      "Fill in the Blank" "Medium" 1).1.record_answer 0 (some "Paris")).evaluate_quiz)
    genAlwaysOk "Fill in the Blank" "Medium" 1 (by decide)

/-- Default row used with `List.getD` when indexing graded results. -/
def gaDflt : GradedAnswer :=
  ⟨0, "", "", "", false⟩

/-- Default question used with `List.getD` when indexing `questions`. -/
def qDflt : Question :=
  Question.mcq ⟨"", [], ""⟩

/-- Length of the grading loop output: one row per zipped pair. -/
theorem gradeList_length (t : String) : ∀ (b : Nat) (ps : List (Question × Option String)),
    (gradeList t b ps).length = ps.length := by
  intro b ps
  induction ps generalizing b with
  | nil => rfl
  | cons p ps ih => simp [gradeList, ih]

/-- Indexing the grading loop output: row `j` grades question `j` against
answer `j`. -/
theorem gradeList_getD (t : String) :
    ∀ (qs : List Question) (uas : List (Option String)) (b j : Nat),
      j < min qs.length uas.length →
      (gradeList t b (qs.zip uas)).getD j gaDflt =
        gradeOne t (b + j) (qs.getD j qDflt) (uas.getD j none) := by
  intro qs
  induction qs with
  | nil =>
    intro uas b j h
    simp at h
  | cons q qs ih =>
    intro uas b j h
    cases uas with
    | nil => simp at h
    | cons ua uas =>
      cases j with
      | zero => simp [gradeList]
      | succ j =>
        have hlt : j < min qs.length uas.length := by
          rw [Nat.lt_min] at h ⊢
          simp only [List.length_cons] at h
          omega
        have step : (gradeList t b ((q :: qs).zip (ua :: uas))).getD (j + 1) gaDflt =
            (gradeList t (b + 1) (qs.zip uas)).getD j gaDflt := by
          show (gradeOne t b (q, ua).1 (q, ua).2 :: gradeList t (b + 1) (qs.zip uas)).getD (j + 1)
              gaDflt = _
          rw [List.getD_cons_succ]
        rw [step, ih uas (b + 1) j hlt, List.getD_cons_succ, List.getD_cons_succ]
        have harith : b + 1 + j = b + (j + 1) := by omega
        rw [harith]

/-- A fill-blank generator returning a question whose model answer is the
empty string. -/
def genBlankAnswer : Generator :=
  { genMCQ := fun _ _ _ => Except.error (.other "unused")
    genFB := fun _ _ _ => Except.ok ⟨"The capital is ___", ""⟩ }

/-- The reachable state: set content, generate one fill-blank question,
record the empty-string answer (Python stores `""` when the text input is
whitespace only), evaluate. -/
def cexC6state : QuizManager :=
  (((QuizManager.init.set_pdf_content "alpha beta").generate_questions_from_pdf genBlankAnswer
      "Fill in the Blank" "Medium" 1).1.record_answer 0 (some "")).evaluate_quiz

/-- Counterexample to C6 as stated: the recorded answer `""` lower-cases and
trims to exactly the model answer (`""` as well), yet `evaluate_quiz` scores
the question incorrect (Python's `user_answer and ...` makes any falsy
recorded answer incorrect) and records "No answer". -/
theorem evaluate_empty_answer_cex :
    cexC6state.user_answers = [some ""] ∧
    pyStrip (pyLower "") = pyStrip (pyLower "") ∧
    cexC6state.results = some [⟨1, "The capital is ___", "No answer", "", false⟩] := by
  exact ⟨by decide, rfl, by decide⟩

/-- C6 (amended): `evaluate_quiz` produces one graded row per zipped
question/answer pair, row `j` grading question `j` against answer `j`; for
Multiple Choice `is_correct` holds exactly when the recorded answer equals
`correct_answer`; for Fill in the Blank `is_correct` holds exactly when a
non-empty answer was recorded whose lower-cased, trimmed form equals the
model answer's; an unset answer is always incorrect and displayed as
"No answer" (and an empty-string recorded answer is treated the same way,
even when the model answer also trims to empty). -/
theorem evaluate_quiz_grading :
    (∀ qm : QuizManager, qm.questions ≠ [] → qm.user_answers ≠ [] →
      ∃ rs, qm.evaluate_quiz.results = some rs ∧
        rs.length = min qm.questions.length qm.user_answers.length ∧
        ∀ j, j < rs.length → rs.getD j gaDflt =
          gradeOne qm.question_type j (qm.questions.getD j qDflt)
            (qm.user_answers.getD j none)) ∧
    (∀ (i : Nat) (m : MCQQuestion) (ua : Option String),
      (gradeOne "Multiple Choice" i (Question.mcq m) ua).is_correct = true ↔
        ua = some m.correct_answer) ∧
    (∀ (i : Nat) (f : FillBlankQuestion) (ua : Option String),
      (gradeOne "Fill in the Blank" i (Question.fillblank f) ua).is_correct = true ↔
        ∃ s, ua = some s ∧ s ≠ "" ∧ pyStrip (pyLower s) = pyStrip (pyLower f.answer)) ∧
    (∀ (t : String) (i : Nat) (q : Question),
      (gradeOne t i q none).is_correct = false ∧
      (gradeOne t i q none).user_answer = "No answer") := by
  refine ⟨?_, ?_, ?_, ?_⟩
  · intro qm hq hua
    have hcond : ¬(qm.questions = [] ∨ qm.user_answers = []) := by
      intro h
      rcases h with h | h
      · exact hq h
      · exact hua h
    refine ⟨gradeList qm.question_type 0 (qm.questions.zip qm.user_answers), ?_, ?_, ?_⟩
    · unfold QuizManager.evaluate_quiz
      rw [if_neg hcond]
    · rw [gradeList_length, List.length_zip]
    · intro j hj
      rw [gradeList_length, List.length_zip] at hj
      have := gradeList_getD qm.question_type qm.questions qm.user_answers 0 j hj
      simpa using this
  · intro i m ua
    have h1 : ("Multiple Choice" : String) = "Multiple Choice" := rfl
    unfold gradeOne
    rw [if_pos h1]
    simp
  · intro i f ua
    have hne : ¬(("Fill in the Blank" : String) = "Multiple Choice") := by decide
    unfold gradeOne
    rw [if_neg hne, if_pos rfl]
    cases ua with
    | none => simp [pyTruthy]
    | some s => simp [pyTruthy]
  · intro t i q
    cases q with
    | mcq m =>
      unfold gradeOne
      split_ifs <;> simp [pyTruthy, answerDisplay]
    | fillblank f =>
      unfold gradeOne
      split_ifs <;> simp [pyTruthy, answerDisplay]

/-- A concrete answered single-question MCQ session. -/
def witC6qm : QuizManager :=
  { QuizManager.init with
    questions := [Question.mcq ⟨"q1", ["A", "B", "C", "D"], "A"⟩]
    user_answers := [some "A"]
    question_type := "Multiple Choice" }

/-- Witness for C6: the grading shape instantiated at a concrete answered
session. -/
theorem evaluate_quiz_grading_witness :
    ∃ rs, witC6qm.evaluate_quiz.results = some rs ∧
      rs.length = min witC6qm.questions.length witC6qm.user_answers.length ∧
      ∀ j, j < rs.length → rs.getD j gaDflt =
        gradeOne witC6qm.question_type j (witC6qm.questions.getD j qDflt)
          (witC6qm.user_answers.getD j none) :=
  evaluate_quiz_grading.1 witC6qm (by decide) (by decide)

/-- Every triple produced by `scoreAll` starting at index `k` has index at
least `k`. -/
theorem scoreAll_idx_ge (qws : Finset String) :
    ∀ (cs : List String) (k : Nat), ∀ b ∈ scoreAll qws k cs, k ≤ b.2.1 := by
  intro cs
  induction cs with
  | nil =>
    intro k b hb
    simp [scoreAll] at hb
  | cons c cs ih =>
    intro k b hb
    rcases List.mem_cons.mp hb with hbc | hb
    · subst hbc
      simp
    · have := ih (k + 1) b hb
      omega

/-- The scoring loop enumerates chunks with strictly increasing indices. -/
theorem scoreAll_idx_mono (qws : Finset String) :
    ∀ (cs : List String) (i : Nat),
      (scoreAll qws i cs).Pairwise (fun a b => a.2.1 < b.2.1) := by
  intro cs
  induction cs with
  | nil => intro i; exact List.Pairwise.nil
  | cons c cs ih =>
    intro i
    refine List.Pairwise.cons ?_ (ih (i + 1))
    intro b hb
    have := scoreAll_idx_ge qws cs (i + 1) b hb
    show i < b.2.1
    omega

/-- Stability of `orderedInsert` under the non-strict descending score
comparison: inserting an element whose index is smaller than every index in
an already lexicographically ordered list (score descending, index
ascending) keeps the list lexicographically ordered. This captures why
Python's stable `sort(reverse=True)` breaks score ties by original chunk
order. -/
theorem orderedInsert_lex (x : ℚ × ℕ × String) :
    ∀ l : List (ℚ × ℕ × String),
      l.Pairwise (fun a b => b.1 < a.1 ∨ (a.1 = b.1 ∧ a.2.1 < b.2.1)) →
      (∀ y ∈ l, x.2.1 < y.2.1) →
      (List.orderedInsert (fun a b => b.1 ≤ a.1) x l).Pairwise
        (fun a b => b.1 < a.1 ∨ (a.1 = b.1 ∧ a.2.1 < b.2.1)) := by
  intro l
  induction l with
  | nil =>
    intro _ _
    simp [List.orderedInsert]
  | cons b l ih =>
    intro hp hx
    rw [List.orderedInsert]
    by_cases hbx : b.1 ≤ x.1
    · rw [if_pos hbx]
      refine List.Pairwise.cons ?_ hp
      intro y hy
      rcases List.mem_cons.mp hy with hyb | hyl
      · rw [hyb]
        rcases lt_or_eq_of_le hbx with hlt | heq
        · exact Or.inl hlt
        · exact Or.inr ⟨heq.symm, hx b (List.mem_cons_self b l)⟩
      · have hby := List.rel_of_pairwise_cons hp hyl
        have hyb : y.1 ≤ b.1 := by
          rcases hby with hlt | ⟨heq, _⟩
          · exact le_of_lt hlt
          · exact le_of_eq heq.symm
        rcases lt_or_eq_of_le (le_trans hyb hbx) with hlt | heq
        · exact Or.inl hlt
        · exact Or.inr ⟨heq.symm, hx y (List.mem_cons_of_mem b hyl)⟩
    · rw [if_neg hbx]
      have hxb : x.1 < b.1 := not_le.mp hbx
      refine List.Pairwise.cons ?_ (ih hp.of_cons (fun y hy => hx y (List.mem_cons_of_mem b hy)))
      intro z hz
      rcases (List.mem_orderedInsert _).mp hz with hzx | hzl
      · subst hzx
        exact Or.inl hxb
      · exact List.rel_of_pairwise_cons hp hzl

/-- Stable descending insertion sort of a list with strictly increasing
indices yields a list ordered by score descending with ties by index
ascending. -/
theorem insertionSort_lex :
    ∀ l : List (ℚ × ℕ × String),
      l.Pairwise (fun a b => a.2.1 < b.2.1) →
      (List.insertionSort (fun a b => b.1 ≤ a.1) l).Pairwise
        (fun a b => b.1 < a.1 ∨ (a.1 = b.1 ∧ a.2.1 < b.2.1)) := by
  intro l
  induction l with
  | nil =>
    intro _
    exact List.Pairwise.nil
  | cons x l ih =>
    intro hp
    rw [List.insertionSort]
    refine orderedInsert_lex x _ (ih hp.of_cons) ?_
    intro y hy
    exact List.rel_of_pairwise_cons hp ((List.mem_insertionSort _).mp hy)

/-- C3: for every query with at least one word (non-empty lower-cased word
set), retrieval succeeds and returns at most `top_k` results, every result
has score strictly greater than 0, and results are ordered by score
descending with ties broken by ascending original chunk index. -/
theorem retrieve_spec (chunks : List String) (query : String) (top_k : Nat)
    (h : queryWords query ≠ ∅) :
    ∃ res, SimpleRetriever.retrieve chunks query top_k = some res ∧
      res.length ≤ top_k ∧
      (∀ r ∈ res, 0 < r.2.2) ∧
      res.Pairwise (fun a b => b.2.2 < a.2.2 ∨ (a.2.2 = b.2.2 ∧ a.1 < b.1)) := by
  refine ⟨(((List.insertionSort (fun a b => b.1 ≤ a.1)
      (scoreAll (queryWords query) 0 chunks)).take top_k).filter
      (fun t => decide (0 < t.1))).map (fun t => (t.2.1, t.2.2, t.1)), ?_, ?_, ?_, ?_⟩
  · unfold SimpleRetriever.retrieve
    rw [if_neg (by simp [h])]
  · calc ((((List.insertionSort (fun a b => b.1 ≤ a.1)
        (scoreAll (queryWords query) 0 chunks)).take top_k).filter
        (fun t => decide (0 < t.1))).map (fun t => (t.2.1, t.2.2, t.1))).length
        = (((List.insertionSort (fun a b => b.1 ≤ a.1)
          (scoreAll (queryWords query) 0 chunks)).take top_k).filter
          (fun t => decide (0 < t.1))).length := List.length_map _ _
      _ ≤ ((List.insertionSort (fun a b => b.1 ≤ a.1)
          (scoreAll (queryWords query) 0 chunks)).take top_k).length :=
        List.length_filter_le _ _
      _ ≤ top_k := by
        rw [List.length_take]
        exact min_le_left _ _
  · intro r hr
    rcases List.mem_map.mp hr with ⟨t, ht, rfl⟩
    have := List.of_mem_filter ht
    simpa using this
  · rw [List.pairwise_map]
    refine List.Pairwise.sublist ?_
      (insertionSort_lex (scoreAll (queryWords query) 0 chunks)
        (scoreAll_idx_mono (queryWords query) chunks 0))
    exact (List.filter_sublist _).trans (List.take_sublist _ _)

/-- Witness for C3 at a concrete query and chunk list. -/
theorem retrieve_spec_witness :
    ∃ res, SimpleRetriever.retrieve ["the cat sat", "dogs bark", "cat"] "the cat" 2 = some res ∧
      res.length ≤ 2 ∧
      (∀ r ∈ res, 0 < r.2.2) ∧
      res.Pairwise (fun a b => b.2.2 < a.2.2 ∨ (a.2.2 = b.2.2 ∧ a.1 < b.1)) :=
  retrieve_spec ["the cat sat", "dogs bark", "cat"] "the cat" 2 (by decide)

/-- Written from the spec's words (section 4.2) for comparison with the
code: Jaccard similarity of the lower-cased whitespace-token sets, 0 when
the union is empty. -/
def specJaccard (query chunk : String) : ℚ :=
  if (queryWords query ∪ queryWords chunk) = ∅ then 0
  else ((queryWords query ∩ queryWords chunk).card : ℚ)
    / ((queryWords query ∪ queryWords chunk).card : ℚ)

/-- Written from the spec's words (section 4.2) for comparison with the
code: keyword-coverage bonus, 0 when the query has no words. -/
def specKeywordBonus (query chunk : String) : ℚ :=
  if queryWords query = ∅ then 0
  else (((queryWords query).filter
      (fun w => pyContains w (pyLower chunk) = true)).card : ℚ)
    / (((queryWords query).card : ℚ))

/-- Written from the spec's words (section 4.2): the final relevance score
`jaccard + 0.5 * keyword_bonus`. -/
def specScore (query chunk : String) : ℚ :=
  specJaccard query chunk + (1 / 2) * specKeywordBonus query chunk

/-- Counterexample to C4 as stated: for a query with no words the code does
not produce the score 0 — it raises `ZeroDivisionError` computing the
keyword bonus (`len(query_words)` is 0), both for a single score and inside
`retrieve`. The score is therefore not defined for every query. -/
theorem score_empty_query_cex :
    scoreOpt "" "hello" = none ∧ SimpleRetriever.retrieve ["hello"] "" 3 = none := by
  exact ⟨rfl, rfl⟩

/-- C4 (amended): for every query with at least one word, the code's
relevance score is defined and equals the spec's
`jaccard + 0.5 * keyword_bonus` (Jaccard of the lower-cased token sets, 0 on
empty union; bonus = matching query words over query word count), and it is
never negative; for a wordless query the code raises instead of scoring 0. -/
theorem score_spec (query chunk : String) (h : queryWords query ≠ ∅) :
    scoreOpt query chunk = some (specScore query chunk) ∧
    0 ≤ specScore query chunk := by
  constructor
  · unfold scoreOpt chunkScoreE
    rw [if_neg h]
    congr 1
    simp only [chunkScoreVal, specScore, specJaccard, specKeywordBonus]
    rw [if_neg h, show (pySplit (pyLower chunk)).toFinset = queryWords chunk from rfl]
    ring
  · have hj : 0 ≤ specJaccard query chunk := by
      unfold specJaccard
      split_ifs with hu
      · exact le_refl 0
      · exact div_nonneg (Nat.cast_nonneg _) (Nat.cast_nonneg _)
    have hb : 0 ≤ specKeywordBonus query chunk := by
      unfold specKeywordBonus
      split_ifs with hq
      · exact le_refl 0
      · exact div_nonneg (Nat.cast_nonneg _) (Nat.cast_nonneg _)
    unfold specScore
    have : (0 : ℚ) ≤ (1 / 2) * specKeywordBonus query chunk := by
      have h2 : (0 : ℚ) ≤ 1 / 2 := by norm_num
      exact mul_nonneg h2 hb
    exact add_nonneg hj this

/-- Witness for C4 at a concrete query/chunk pair. -/
theorem score_spec_witness :
    scoreOpt "cat" "the cat sat" = some (specScore "cat" "the cat sat") ∧
    0 ≤ specScore "cat" "the cat sat" :=
  score_spec "cat" "the cat sat" (by decide)

/-- Splitting a run of non-whitespace characters extends the accumulated
word and emits it alone. -/
theorem splitAcc_no_ws : ∀ (w acc : List Char), (∀ c ∈ w, c.isWhitespace = false) →
    splitAcc w acc = if acc ++ w = [] then [] else [acc ++ w] := by
  intro w
  induction w with
  | nil =>
    intro acc _
    simp [splitAcc]
  | cons c w ih =>
    intro acc h
    have hc : c.isWhitespace = false := h c (List.mem_cons_self c w)
    have hrest : ∀ x ∈ w, x.isWhitespace = false := fun x hx => h x (List.mem_cons_of_mem c hx)
    rw [show splitAcc (c :: w) acc = splitAcc w (acc ++ [c]) by simp [splitAcc, hc]]
    rw [ih (acc ++ [c]) hrest]
    simp

/-- Splitting a non-whitespace word followed by a space emits the word and
continues on the rest with an empty accumulator. -/
theorem splitAcc_word_space : ∀ (w acc rest : List Char),
    (∀ c ∈ w, c.isWhitespace = false) →
    splitAcc (w ++ ' ' :: rest) acc =
      if acc ++ w = [] then splitAcc rest [] else (acc ++ w) :: splitAcc rest [] := by
  intro w
  induction w with
  | nil =>
    intro acc rest _
    have hsp : (' ' : Char).isWhitespace = true := rfl
    simp [splitAcc, hsp]
  | cons c w ih =>
    intro acc rest h
    have hc : c.isWhitespace = false := h c (List.mem_cons_self c w)
    have hrest : ∀ x ∈ w, x.isWhitespace = false := fun x hx => h x (List.mem_cons_of_mem c hx)
    rw [show splitAcc ((c :: w) ++ ' ' :: rest) acc = splitAcc (w ++ ' ' :: rest) (acc ++ [c])
      by simp [splitAcc, hc]]
    rw [ih (acc ++ [c]) rest hrest]
    simp

/-- Every word produced by the splitting scan is non-empty and
whitespace-free, provided the accumulator is whitespace-free. -/
theorem splitAcc_sound : ∀ (l acc : List Char), (∀ c ∈ acc, c.isWhitespace = false) →
    ∀ w ∈ splitAcc l acc, w ≠ [] ∧ ∀ c ∈ w, c.isWhitespace = false := by
  intro l
  induction l with
  | nil =>
    intro acc hacc w hw
    by_cases h : acc = []
    · simp [splitAcc, h] at hw
    · simp [splitAcc, h] at hw
      subst hw
      exact ⟨h, hacc⟩
  | cons c cs ih =>
    intro acc hacc w hw
    cases hcw : c.isWhitespace with
    | true =>
      by_cases hacc0 : acc = []
      · rw [show splitAcc (c :: cs) acc = splitAcc cs [] by simp [splitAcc, hcw, hacc0]] at hw
        exact ih [] (by simp) w hw
      · rw [show splitAcc (c :: cs) acc = acc :: splitAcc cs []
          by simp [splitAcc, hcw, hacc0]] at hw
        rcases List.mem_cons.mp hw with hwa | hw2
        · rw [hwa]
          exact ⟨hacc0, hacc⟩
        · exact ih [] (by simp) w hw2
    | false =>
      rw [show splitAcc (c :: cs) acc = splitAcc cs (acc ++ [c])
        by simp [splitAcc, hcw]] at hw
      refine ih (acc ++ [c]) ?_ w hw
      intro x hx
      rcases List.mem_append.mp hx with hx | hx
      · exact hacc x hx
      · rw [List.mem_singleton.mp hx]
        exact hcw

/-- Round trip: splitting the space-join of non-empty whitespace-free words
returns exactly those words. -/
theorem wordsAux_joinWordsCh : ∀ ws : List (List Char),
    (∀ w ∈ ws, w ≠ [] ∧ ∀ c ∈ w, c.isWhitespace = false) →
    wordsAux (joinWordsCh ws) = ws := by
  intro ws
  induction ws with
  | nil =>
    intro _
    rfl
  | cons w ws ih =>
    intro h
    have hw := h w (List.mem_cons_self w ws)
    cases ws with
    | nil =>
      show splitAcc w [] = [w]
      rw [splitAcc_no_ws w [] hw.2]
      simp [hw.1]
    | cons w2 ws2 =>
      show splitAcc (w ++ ' ' :: joinWordsCh (w2 :: ws2)) [] = w :: w2 :: ws2
      rw [splitAcc_word_space w [] (joinWordsCh (w2 :: ws2)) hw.2]
      rw [List.nil_append, if_neg hw.1]
      have := ih (fun x hx => h x (List.mem_cons_of_mem w hx))
      rw [show splitAcc (joinWordsCh (w2 :: ws2)) [] = wordsAux (joinWordsCh (w2 :: ws2)) from rfl]
      rw [this]

/-- The words of any string are non-empty and whitespace-free at the
character level. -/
theorem pySplit_sound (s : String) :
    ∀ w ∈ (pySplit s).map String.data, w ≠ [] ∧ ∀ c ∈ w, c.isWhitespace = false := by
  intro w hw
  have : (pySplit s).map String.data = wordsAux s.data := by
    unfold pySplit
    rw [List.map_map]
    rw [show String.data ∘ String.mk = id from funext fun l => rfl, List.map_id]
  rw [this] at hw
  exact splitAcc_sound s.data [] (by simp) w hw

/-- String-level round trip: `pySplit (joinSpace ws) = ws` when every word
of `ws` is non-empty and whitespace-free. -/
theorem pySplit_joinSpace (ws : List String)
    (h : ∀ w ∈ ws.map String.data, w ≠ [] ∧ ∀ c ∈ w, c.isWhitespace = false) :
    pySplit (joinSpace ws) = ws := by
  unfold pySplit joinSpace
  rw [show (String.mk (joinWordsCh (ws.map String.data))).data =
    joinWordsCh (ws.map String.data) from rfl]
  rw [wordsAux_joinWordsCh (ws.map String.data) h]
  rw [List.map_map]
  rw [show String.mk ∘ String.data = id from funext fun s => rfl, List.map_id]

/-- Concatenating the windows of the word list reproduces the word list. -/
theorem chunkWindowsFuel_join :
    ∀ (fuel : Nat) (l : List String) (cs : Nat), 0 < cs → l.length ≤ fuel →
      (chunkWindowsFuel fuel l cs).flatten = l := by
  intro fuel
  induction fuel with
  | zero =>
    intro l cs _ hl
    have : l = [] := List.eq_nil_of_length_eq_zero (Nat.le_zero.mp hl)
    subst this
    rfl
  | succ fuel ih =>
    intro l cs hcs hl
    cases l with
    | nil => rfl
    | cons w ws =>
      show ((w :: ws).take cs :: chunkWindowsFuel fuel ((w :: ws).drop cs) cs).flatten = w :: ws
      rw [List.flatten_cons]
      rw [ih ((w :: ws).drop cs) cs hcs (by
        rw [List.length_drop]
        simp only [List.length_cons] at hl ⊢
        omega)]
      exact List.take_append_drop cs (w :: ws)

/-- Window sizes: every window has at most `cs` words, and every window but
possibly the last has exactly `cs` words. -/
theorem chunkWindowsFuel_sizes :
    ∀ (fuel : Nat) (l : List String) (cs : Nat), 0 < cs → l.length ≤ fuel →
      (∀ w ∈ chunkWindowsFuel fuel l cs, w.length ≤ cs) ∧
      (∀ j, j + 1 < (chunkWindowsFuel fuel l cs).length →
        ((chunkWindowsFuel fuel l cs).getD j []).length = cs) := by
  intro fuel
  induction fuel with
  | zero =>
    intro l cs _ hl
    have : l = [] := List.eq_nil_of_length_eq_zero (Nat.le_zero.mp hl)
    subst this
    exact ⟨fun w hw => absurd hw (by simp [chunkWindowsFuel]), fun j hj => absurd hj (by
      simp [chunkWindowsFuel])⟩
  | succ fuel ih =>
    intro l cs hcs hl
    cases l with
    | nil =>
      exact ⟨fun w hw => absurd hw (by simp [chunkWindowsFuel]), fun j hj => absurd hj (by
        simp [chunkWindowsFuel])⟩
    | cons x xs =>
      have hstep : chunkWindowsFuel (fuel + 1) (x :: xs) cs =
          (x :: xs).take cs :: chunkWindowsFuel fuel ((x :: xs).drop cs) cs := rfl
      have hdl : ((x :: xs).drop cs).length ≤ fuel := by
        rw [List.length_drop]
        simp only [List.length_cons] at hl ⊢
        omega
      have IH := ih ((x :: xs).drop cs) cs hcs hdl
      constructor
      · intro w hw
        rw [hstep] at hw
        rcases List.mem_cons.mp hw with hwt | hw2
        · rw [hwt, List.length_take]
          exact min_le_left _ _
        · exact IH.1 w hw2
      · intro j hj
        rw [hstep] at hj ⊢
        cases j with
        | zero =>
          rw [List.getD_cons_zero, List.length_take]
          simp only [List.length_cons] at hj ⊢
          have hne : chunkWindowsFuel fuel ((x :: xs).drop cs) cs ≠ [] := by
            intro hnil
            rw [hnil] at hj
            simp at hj
          have hdrop : (x :: xs).drop cs ≠ [] := by
            intro hdnil
            rw [hdnil] at hne
            exact hne (by cases fuel <;> rfl)
          have hlt : cs < (x :: xs).length := by
            by_contra hge
            push_neg at hge
            exact hdrop (List.drop_eq_nil_of_le hge)
          simp only [List.length_cons] at hlt
          omega
        | succ j =>
          rw [List.getD_cons_succ]
          refine IH.2 j ?_
          simp only [List.length_cons] at hj
          omega

/-- C8: for non-empty text and `num_parts ≥ 1`, word-mode chunking returns a
non-empty sequence of chunks of `max(word_count / num_parts, 100)` words
each (the last possibly shorter), concatenating all chunks' words in order
reproduces the original word sequence, and when windowing yields zero
chunks the whole text is returned as a single chunk. -/
theorem split_content_spec (content : String) (num_parts : Nat)
    (hc : content ≠ "") (hn : 1 ≤ num_parts) :
    splitContent content num_parts ≠ [] ∧
    ((splitContent content num_parts).map pySplit).flatten = pySplit content ∧
    (∀ chunk ∈ splitContent content num_parts,
      (pySplit chunk).length ≤ max ((pySplit content).length / num_parts) 100) ∧
    (∀ j, j + 1 < (splitContent content num_parts).length →
      (pySplit ((splitContent content num_parts).getD j "")).length =
        max ((pySplit content).length / num_parts) 100) ∧
    (chunkWindows (pySplit content) (max ((pySplit content).length / num_parts) 100) = [] →
      splitContent content num_parts = [content]) := by
  have hcs : 0 < max ((pySplit content).length / num_parts) 100 := by
    have := le_max_right ((pySplit content).length / num_parts) 100
    omega
  have hsc : splitContent content num_parts =
      if ((chunkWindows (pySplit content)
          (max ((pySplit content).length / num_parts) 100)).map joinSpace) = [] then [content]
      else (chunkWindows (pySplit content)
          (max ((pySplit content).length / num_parts) 100)).map joinSpace := rfl
  have hflat : (chunkWindows (pySplit content)
      (max ((pySplit content).length / num_parts) 100)).flatten = pySplit content :=
    chunkWindowsFuel_join _ _ _ hcs le_rfl
  have hround : ∀ w ∈ chunkWindows (pySplit content)
      (max ((pySplit content).length / num_parts) 100), pySplit (joinSpace w) = w := by
    intro w hw
    apply pySplit_joinSpace
    intro x hx
    rcases List.mem_map.mp hx with ⟨y, hy, rfl⟩
    have hyw : y ∈ pySplit content := by
      rw [← hflat]
      exact List.mem_flatten.mpr ⟨w, hw, hy⟩
    exact pySplit_sound content y.data (List.mem_map.mpr ⟨y, hyw, rfl⟩)
  by_cases hwords : pySplit content = []
  · have hwin : chunkWindows (pySplit content)
        (max ((pySplit content).length / num_parts) 100) = [] := by
      rw [show chunkWindows (pySplit content)
          (max ((pySplit content).length / num_parts) 100) =
        chunkWindowsFuel (pySplit content).length (pySplit content)
          (max ((pySplit content).length / num_parts) 100) from rfl]
      rw [hwords]
      rfl
    have heq : splitContent content num_parts = [content] := by
      rw [hsc, hwin]
      simp
    refine ⟨by rw [heq]; simp, ?_, ?_, ?_, fun _ => heq⟩
    · rw [heq]
      simp [hwords]
    · intro chunk hck
      rw [heq] at hck
      rw [List.mem_singleton.mp hck, hwords]
      simp
    · intro j hj
      rw [heq] at hj
      simp at hj
  · have hwne : chunkWindows (pySplit content)
        (max ((pySplit content).length / num_parts) 100) ≠ [] := by
      obtain ⟨w0, ws0, hcons⟩ := List.exists_cons_of_ne_nil hwords
      rw [show chunkWindows (pySplit content)
          (max ((pySplit content).length / num_parts) 100) =
        chunkWindowsFuel (pySplit content).length (pySplit content)
          (max ((pySplit content).length / num_parts) 100) from rfl]
      rw [hcons]
      simp [chunkWindowsFuel]
    have hmapne : (chunkWindows (pySplit content)
        (max ((pySplit content).length / num_parts) 100)).map joinSpace ≠ [] := by
      simpa [List.map_eq_nil_iff] using hwne
    have heq : splitContent content num_parts = (chunkWindows (pySplit content)
        (max ((pySplit content).length / num_parts) 100)).map joinSpace := by
      rw [hsc, if_neg hmapne]
    have hmaps : (splitContent content num_parts).map pySplit = chunkWindows (pySplit content)
        (max ((pySplit content).length / num_parts) 100) := by
      rw [heq, List.map_map]
      rw [show (chunkWindows (pySplit content)
          (max ((pySplit content).length / num_parts) 100)).map (pySplit ∘ joinSpace) =
        (chunkWindows (pySplit content)
          (max ((pySplit content).length / num_parts) 100)).map id from
        List.map_congr_left (fun w hw => hround w hw)]
      exact List.map_id _
    refine ⟨?_, ?_, ?_, ?_, fun hwinnil => absurd hwinnil hwne⟩
    · rw [heq]
      exact hmapne
    · rw [hmaps]
      exact hflat
    · intro chunk hck
      rw [heq] at hck
      rcases List.mem_map.mp hck with ⟨w, hw, rfl⟩
      rw [hround w hw]
      exact (chunkWindowsFuel_sizes _ _ _ hcs le_rfl).1 w hw
    · intro j hj
      have hlenm : (splitContent content num_parts).length = (chunkWindows (pySplit content)
          (max ((pySplit content).length / num_parts) 100)).length := by
        rw [heq]
        exact List.length_map _ _
      rw [hlenm] at hj
      have hjlt : j < (chunkWindows (pySplit content)
          (max ((pySplit content).length / num_parts) 100)).length := by omega
      have hidx := (chunkWindowsFuel_sizes _ _ _ hcs le_rfl).2 j hj
      rw [show chunkWindowsFuel (pySplit content).length (pySplit content)
          (max ((pySplit content).length / num_parts) 100) =
        chunkWindows (pySplit content)
          (max ((pySplit content).length / num_parts) 100) from rfl] at hidx
      rw [List.getD_eq_getElem _ _ hjlt] at hidx
      rw [heq]
      rw [List.getD_eq_getElem _ _ (by rw [List.length_map]; exact hjlt)]
      rw [List.getElem_map]
      rw [hround _ (List.getElem_mem hjlt)]
      exact hidx

/-- Witness for C8 at concrete inputs: a 4-word text split into 2 parts. -/
theorem split_content_spec_witness :
    splitContent "alpha beta gamma delta" 2 ≠ [] ∧
    ((splitContent "alpha beta gamma delta" 2).map pySplit).flatten =
      pySplit "alpha beta gamma delta" ∧
    (∀ chunk ∈ splitContent "alpha beta gamma delta" 2,
      (pySplit chunk).length ≤ max ((pySplit "alpha beta gamma delta").length / 2) 100) ∧
    (∀ j, j + 1 < (splitContent "alpha beta gamma delta" 2).length →
      (pySplit ((splitContent "alpha beta gamma delta" 2).getD j "")).length =
        max ((pySplit "alpha beta gamma delta").length / 2) 100) ∧
    (chunkWindows (pySplit "alpha beta gamma delta")
        (max ((pySplit "alpha beta gamma delta").length / 2) 100) = [] →
      splitContent "alpha beta gamma delta" 2 = ["alpha beta gamma delta"]) :=
  split_content_spec "alpha beta gamma delta" 2 (by decide) (by decide)
